import Mathlib

/-!
Verification of the micro-compass firmware (src/main.rs).

The firmware samples an accelerometer/magnetometer pair, fuses the two
readings into a tilt-compensated heading (`compute_heading`), classifies the
heading into a cardinal direction (`get_cardinal_direction`), and renders an
arrow on a 5x5 LED matrix (`display_direction_on_led`), inside a steady
polling loop preceded by a fallible setup sequence.

Real-valued sensor arithmetic (f32 in the source) is embedded over ℝ, with
Rust's `atan2` modelled as the argument of a complex number and `to_degrees`
as multiplication by 180/π.  The classifier, whose content is pure order
comparison, is additionally embedded over ℚ (every f32 value is rational)
and over an explicit IEEE-style carrier with a NaN element whose comparisons
are all false.  The control flow of `main` (setup sequence and steady loop)
is embedded as trace-producing functions over the outcomes of the fallible
and freshness-polling operations.
-/

open Real

/-- Rust `f32::atan2`: `y.atan2 x` is the angle of the point `(x, y)`,
embedded as the argument of the complex number `x + y i`, which lies in
`(-π, π]` and is `0` at the origin, matching the library convention. -/
noncomputable def atan2 (y x : ℝ) : ℝ :=
  Complex.arg (Complex.ofReal x + Complex.ofReal y * Complex.I)

/-- Rust `f32::to_degrees`: multiply by `180 / π`. -/
noncomputable def to_degrees (r : ℝ) : ℝ := r * (180 / Real.pi)

/-- Embedding of `compute_heading` (src/main.rs lines 123-154): normalize the
accelerometer vector, derive pitch and roll, tilt-compensate the magnetometer
reading, and fold the resulting angle into `[0, 360)`. -/
noncomputable def compute_heading (accel_x accel_y accel_z mag_x mag_y mag_z : ℝ) : ℝ :=
  let accel_norm := Real.sqrt (accel_x * accel_x + accel_y * accel_y + accel_z * accel_z)
  let ax := accel_x / accel_norm
  let ay := accel_y / accel_norm
  let az := accel_z / accel_norm
  let pitch := Real.arcsin (-ax)
  let roll := atan2 ay az
  let mag_xh := mag_x * Real.cos roll + mag_y * Real.sin roll * Real.sin pitch
    - mag_z * Real.cos pitch
  let mag_yh := mag_y * Real.cos pitch + mag_z * Real.sin pitch
  let heading := to_degrees (atan2 mag_yh mag_xh)
  if heading < 0 then heading + 360 else heading

/-- Embedding of `get_cardinal_direction` (src/main.rs lines 157-165) for
non-NaN headings, generic over the ordered field carrying the value (ℚ for
decidable evaluation, ℝ when applied to `compute_heading`).  The guard
chain of the Rust `match` is an if-chain of the same comparisons. -/
def get_cardinal_direction {α : Type} [LinearOrderedField α] (heading : α) : String :=
  if heading ≥ 315 ∨ heading < 45 then "N"
  else if heading ≥ 45 ∧ heading < 135 then "E"
  else if heading ≥ 135 ∧ heading < 225 then "S"
  else if heading ≥ 225 ∧ heading < 315 then "W"
  else "?"

/-- An f32 comparison operand: either NaN or a finite value (every finite
f32 is a rational number).  IEEE-754 comparisons involving NaN are false. -/
inductive FVal where
  | nan : FVal
  | val : ℚ → FVal
deriving DecidableEq

/-- IEEE `>=` against a constant: false when the operand is NaN. -/
def fge : FVal → ℚ → Bool
  | FVal.nan, _ => false
  | FVal.val r, c => decide (c ≤ r)

/-- IEEE `<` against a constant: false when the operand is NaN. -/
def flt : FVal → ℚ → Bool
  | FVal.nan, _ => false
  | FVal.val r, c => decide (r < c)

/-- Embedding of `get_cardinal_direction` (src/main.rs lines 157-165) over
the IEEE carrier `FVal`, reproducing the guard chain of the Rust `match`
with NaN-aware comparisons; the wildcard arm yields the fallback. -/
def get_cardinal_direction_ieee (heading : FVal) : String :=
  if fge heading 315 || flt heading 45 then "N"
  else if fge heading 45 && flt heading 135 then "E"
  else if fge heading 135 && flt heading 225 then "S"
  else if fge heading 225 && flt heading 315 then "W"
  else "?"

/-- The arrow lookup table of `display_direction_on_led` (src/main.rs lines
173-183): the seven (row, column) cells lit for each direction string, with
the wildcard arm giving seven copies of the center cell. -/
def arrowPattern (direction : String) : List (Nat × Nat) :=
  if direction = "N" then [(0, 2), (1, 1), (1, 2), (1, 3), (2, 2), (3, 2), (4, 2)]
  else if direction = "S" then [(0, 2), (1, 2), (2, 2), (3, 1), (3, 2), (3, 3), (4, 2)]
  else if direction = "E" then [(2, 0), (2, 1), (2, 2), (2, 3), (2, 4), (1, 3), (3, 3)]
  else if direction = "W" then [(2, 0), (1, 1), (3, 1), (2, 1), (2, 2), (2, 3), (2, 4)]
  else [(2, 2), (2, 2), (2, 2), (2, 2), (2, 2), (2, 2), (2, 2)]

/-- Observable actions of one steady-loop iteration (src/main.rs lines
84-120). -/
inductive Event where
  | checkAccelStatus : Event
  | readAcceleration : Event
  | warnNoAccel : Event
  | checkMagStatus : Event
  | readMagneticField : Event
  | warnNoMag : Event
  | computeHeadingEvt : Event
  | logHeading : Event
  | displayDirection : Event
  | interSampleDelay : Event
deriving DecidableEq

/-- One iteration of the steady loop (src/main.rs lines 84-120), as the
sequence of observable actions it performs, given the results of the two
freshness polls.  A stale poll logs a warning and executes `continue`, which
restarts the loop immediately: the trailing `Delay.delay_ms(100)` at line 119
is reached only on the full path. -/
def loopIteration (accelNew magNew : Bool) : List Event :=
  if accelNew then
    if magNew then
      [Event.checkAccelStatus, Event.readAcceleration, Event.checkMagStatus,
        Event.readMagneticField, Event.computeHeadingEvt, Event.logHeading,
        Event.displayDirection, Event.interSampleDelay]
    else
      [Event.checkAccelStatus, Event.readAcceleration, Event.checkMagStatus,
        Event.warnNoMag]
  else
    [Event.checkAccelStatus, Event.warnNoAccel]

/-- Observable actions of the setup sequence of `main` (src/main.rs lines
50-82). -/
inductive SetupEvent where
  | logMagIdOk : SetupEvent
  | logMagIdErr : SetupEvent
  | initDone : SetupEvent
  | configAccelDone : SetupEvent
  | configMagDone : SetupEvent
  | contModeDone : SetupEvent
  | lpfDone : SetupEvent
  | fatalHalt : SetupEvent
  | steadyLoopEntered : SetupEvent
deriving DecidableEq

/-- Success or failure of each fallible operation of the setup sequence, an
abstraction of the sensor's responses during startup. -/
structure SetupOutcomes where
  magIdOk : Bool
  initOk : Bool
  accelCfgOk : Bool
  magCfgOk : Bool
  contModeOk : Bool
  lpfOk : Bool

/-- The log event emitted by the `match` on `magnetometer_id()` at lines
50-53: success and failure each produce one info line. -/
def magIdLog (ok : Bool) : SetupEvent :=
  if ok then SetupEvent.logMagIdOk else SetupEvent.logMagIdErr

/-- The setup sequence after the identity probe (src/main.rs lines 56-84):
`init`, the two mode configurations and `mag_enable_low_pass_filter` are
followed by `.unwrap()`, and `into_mag_continuous` by a `let Ok .. else
panic!`, so the first failure halts the task; only full success reaches the
steady loop. -/
def setupAfterMagId (o : SetupOutcomes) : List SetupEvent :=
  if o.initOk then
    SetupEvent.initDone ::
      (if o.accelCfgOk then
        SetupEvent.configAccelDone ::
          (if o.magCfgOk then
            SetupEvent.configMagDone ::
              (if o.contModeOk then
                SetupEvent.contModeDone ::
                  (if o.lpfOk then
                    [SetupEvent.lpfDone, SetupEvent.steadyLoopEntered]
                  else [SetupEvent.fatalHalt])
              else [SetupEvent.fatalHalt])
          else [SetupEvent.fatalHalt])
      else [SetupEvent.fatalHalt])
  else [SetupEvent.fatalHalt]

/-- The full startup trace of `main` (src/main.rs lines 50-84): the identity
probe is logged, then the fallible setup sequence runs. -/
def startupTrace (o : SetupOutcomes) : List SetupEvent :=
  magIdLog o.magIdOk :: setupAfterMagId o

/-- The first guard of `get_cardinal_direction` fires on its range. -/
lemma gcd_eq_north {α : Type} [LinearOrderedField α] (h : α) (hc : h ≥ 315 ∨ h < 45) :
    get_cardinal_direction h = "N" := by
  unfold get_cardinal_direction
  rw [if_pos hc]

/-- The second guard of `get_cardinal_direction` fires on its range. -/
lemma gcd_eq_east {α : Type} [LinearOrderedField α] (h : α) (h1 : 45 ≤ h) (h2 : h < 135) :
    get_cardinal_direction h = "E" := by
  unfold get_cardinal_direction
  have hn : ¬(h ≥ 315 ∨ h < 45) := by rintro (hx | hx) <;> linarith
  rw [if_neg hn, if_pos ⟨h1, h2⟩]

/-- The third guard of `get_cardinal_direction` fires on its range. -/
lemma gcd_eq_south {α : Type} [LinearOrderedField α] (h : α) (h1 : 135 ≤ h) (h2 : h < 225) :
    get_cardinal_direction h = "S" := by
  unfold get_cardinal_direction
  have hn : ¬(h ≥ 315 ∨ h < 45) := by rintro (hx | hx) <;> linarith
  have hn2 : ¬(h ≥ 45 ∧ h < 135) := by rintro ⟨_, hx⟩; linarith
  rw [if_neg hn, if_neg hn2, if_pos ⟨h1, h2⟩]

/-- The fourth guard of `get_cardinal_direction` fires on its range. -/
lemma gcd_eq_west {α : Type} [LinearOrderedField α] (h : α) (h1 : 225 ≤ h) (h2 : h < 315) :
    get_cardinal_direction h = "W" := by
  unfold get_cardinal_direction
  have hn : ¬(h ≥ 315 ∨ h < 45) := by rintro (hx | hx) <;> linarith
  have hn2 : ¬(h ≥ 45 ∧ h < 135) := by rintro ⟨_, hx⟩; linarith
  have hn3 : ¬(h ≥ 135 ∧ h < 225) := by rintro ⟨_, hx⟩; linarith
  rw [if_neg hn, if_neg hn2, if_neg hn3, if_pos ⟨h1, h2⟩]

/-- C1: for every heading h in [0, 360), `get_cardinal_direction` returns
exactly one of N, E, S, W according to the closed-open buckets
North = [315, 360) ∪ [0, 45), East = [45, 135), South = [135, 225),
West = [225, 315); in particular 0 ↦ N, 45 ↦ E, 135 ↦ S, 225 ↦ W, 315 ↦ N,
and the four buckets partition [0, 360) with no gap or overlap (each bucket
holds iff its range condition does). -/
theorem classifier_partition (h : ℚ) (h0 : 0 ≤ h) (h360 : h < 360) :
    (get_cardinal_direction h = "N" ↔ (315 ≤ h ∨ h < 45))
    ∧ (get_cardinal_direction h = "E" ↔ (45 ≤ h ∧ h < 135))
    ∧ (get_cardinal_direction h = "S" ↔ (135 ≤ h ∧ h < 225))
    ∧ (get_cardinal_direction h = "W" ↔ (225 ≤ h ∧ h < 315))
    ∧ (get_cardinal_direction h = "N" ∨ get_cardinal_direction h = "E"
        ∨ get_cardinal_direction h = "S" ∨ get_cardinal_direction h = "W")
    ∧ get_cardinal_direction (0 : ℚ) = "N"
    ∧ get_cardinal_direction (45 : ℚ) = "E"
    ∧ get_cardinal_direction (135 : ℚ) = "S"
    ∧ get_cardinal_direction (225 : ℚ) = "W"
    ∧ get_cardinal_direction (315 : ℚ) = "N" := by
  have k0 : get_cardinal_direction (0 : ℚ) = "N" := gcd_eq_north 0 (Or.inr (by norm_num))
  have k45 : get_cardinal_direction (45 : ℚ) = "E" := gcd_eq_east 45 (by norm_num) (by norm_num)
  have k135 : get_cardinal_direction (135 : ℚ) = "S" :=
    gcd_eq_south 135 (by norm_num) (by norm_num)
  have k225 : get_cardinal_direction (225 : ℚ) = "W" :=
    gcd_eq_west 225 (by norm_num) (by norm_num)
  have k315 : get_cardinal_direction (315 : ℚ) = "N" := gcd_eq_north 315 (Or.inl (by norm_num))
  have hcases : (315 ≤ h ∨ h < 45) ∨ (45 ≤ h ∧ h < 135) ∨ (135 ≤ h ∧ h < 225)
      ∨ (225 ≤ h ∧ h < 315) := by
    rcases lt_or_le h 45 with c | c
    · exact Or.inl (Or.inr c)
    rcases lt_or_le h 135 with d | d
    · exact Or.inr (Or.inl ⟨c, d⟩)
    rcases lt_or_le h 225 with e | e
    · exact Or.inr (Or.inr (Or.inl ⟨d, e⟩))
    rcases lt_or_le h 315 with f | f
    · exact Or.inr (Or.inr (Or.inr ⟨e, f⟩))
    · exact Or.inl (Or.inl f)
  rcases hcases with hc | hc | hc | hc
  · have hv : get_cardinal_direction h = "N" := gcd_eq_north h hc
    rw [hv]
    refine ⟨iff_of_true rfl hc, ?_, ?_, ?_, Or.inl rfl, k0, k45, k135, k225, k315⟩
    · exact iff_of_false (by decide) (by rintro ⟨a, b⟩; rcases hc with hx | hx <;> linarith)
    · exact iff_of_false (by decide) (by rintro ⟨a, b⟩; rcases hc with hx | hx <;> linarith)
    · exact iff_of_false (by decide) (by rintro ⟨a, b⟩; rcases hc with hx | hx <;> linarith)
  · have hv : get_cardinal_direction h = "E" := gcd_eq_east h hc.1 hc.2
    rw [hv]
    refine ⟨?_, iff_of_true rfl hc, ?_, ?_, Or.inr (Or.inl rfl), k0, k45, k135, k225, k315⟩
    · exact iff_of_false (by decide)
        (by rintro (a | a) <;> [linarith [hc.2]; linarith [hc.1]])
    · exact iff_of_false (by decide) (by rintro ⟨a, b⟩; linarith [hc.2])
    · exact iff_of_false (by decide) (by rintro ⟨a, b⟩; linarith [hc.2])
  · have hv : get_cardinal_direction h = "S" := gcd_eq_south h hc.1 hc.2
    rw [hv]
    refine ⟨?_, ?_, iff_of_true rfl hc, ?_, Or.inr (Or.inr (Or.inl rfl)),
      k0, k45, k135, k225, k315⟩
    · exact iff_of_false (by decide)
        (by rintro (a | a) <;> [linarith [hc.2]; linarith [hc.1]])
    · exact iff_of_false (by decide) (by rintro ⟨a, b⟩; linarith [hc.1])
    · exact iff_of_false (by decide) (by rintro ⟨a, b⟩; linarith [hc.2])
  · have hv : get_cardinal_direction h = "W" := gcd_eq_west h hc.1 hc.2
    rw [hv]
    refine ⟨?_, ?_, ?_, iff_of_true rfl hc, Or.inr (Or.inr (Or.inr rfl)),
      k0, k45, k135, k225, k315⟩
    · exact iff_of_false (by decide)
        (by rintro (a | a) <;> [linarith [hc.2]; linarith [hc.1]])
    · exact iff_of_false (by decide) (by rintro ⟨a, b⟩; linarith [hc.1])
    · exact iff_of_false (by decide) (by rintro ⟨a, b⟩; linarith [hc.1])

/-- Witness for C1 at the concrete heading 100 (an East heading). -/
theorem classifier_partition_witness :
    ((0 : ℚ) ≤ 100 ∧ (100 : ℚ) < 360)
    ∧ ((get_cardinal_direction (100 : ℚ) = "N" ↔ (315 ≤ (100 : ℚ) ∨ (100 : ℚ) < 45))
      ∧ (get_cardinal_direction (100 : ℚ) = "E" ↔ (45 ≤ (100 : ℚ) ∧ (100 : ℚ) < 135))
      ∧ (get_cardinal_direction (100 : ℚ) = "S" ↔ (135 ≤ (100 : ℚ) ∧ (100 : ℚ) < 225))
      ∧ (get_cardinal_direction (100 : ℚ) = "W" ↔ (225 ≤ (100 : ℚ) ∧ (100 : ℚ) < 315))
      ∧ (get_cardinal_direction (100 : ℚ) = "N" ∨ get_cardinal_direction (100 : ℚ) = "E"
          ∨ get_cardinal_direction (100 : ℚ) = "S" ∨ get_cardinal_direction (100 : ℚ) = "W")
      ∧ get_cardinal_direction (0 : ℚ) = "N"
      ∧ get_cardinal_direction (45 : ℚ) = "E"
      ∧ get_cardinal_direction (135 : ℚ) = "S"
      ∧ get_cardinal_direction (225 : ℚ) = "W"
      ∧ get_cardinal_direction (315 : ℚ) = "N") :=
  ⟨⟨by norm_num, by norm_num⟩, classifier_partition 100 (by norm_num) (by norm_num)⟩

/-- C4 counterexample: in a cycle where `accel_has_new_sample()` is false,
the source executes `continue`, so the inter-sample delay step at line 119
is NOT reached, contrary to the claim that the loop proceeds to the delay
step before the next iteration. -/
theorem stale_skip_counterexample : Event.interSampleDelay ∉ loopIteration false false := by
  decide

/-- C4 (amended): in every steady-loop iteration where the accelerometer
poll is false (or the magnetometer poll is false), no read of the missing
sensor and no heading computation occurs in that cycle, and the loop
restarts the next iteration immediately, skipping the fixed inter-sample
delay step. -/
theorem stale_skip (accelNew magNew : Bool)
    (h : accelNew = false ∨ magNew = false) :
    (accelNew = false → Event.readAcceleration ∉ loopIteration accelNew magNew)
    ∧ Event.readMagneticField ∉ loopIteration accelNew magNew
    ∧ Event.computeHeadingEvt ∉ loopIteration accelNew magNew
    ∧ Event.interSampleDelay ∉ loopIteration accelNew magNew := by
  cases accelNew <;> cases magNew
  · decide
  · decide
  · decide
  · simp at h

/-- Witness for C4's amended theorem in the cycle where both polls are
stale. -/
theorem stale_skip_witness :
    (false = false ∨ false = false)
    ∧ ((false = false → Event.readAcceleration ∉ loopIteration false false)
      ∧ Event.readMagneticField ∉ loopIteration false false
      ∧ Event.computeHeadingEvt ∉ loopIteration false false
      ∧ Event.interSampleDelay ∉ loopIteration false false) :=
  ⟨Or.inl rfl, stale_skip false false (Or.inl rfl)⟩

/-- C6: for every direction string that is none of N, S, E, W, the display
lookup selects seven copies of the center cell (2, 2), and every selected
cell is inside the 5x5 matrix, so the row/column indexing cannot fault. -/
theorem display_fallback (d : String) (hN : d ≠ "N") (hS : d ≠ "S")
    (hE : d ≠ "E") (hW : d ≠ "W") :
    arrowPattern d = List.replicate 7 (2, 2)
    ∧ ∀ p ∈ arrowPattern d, p.1 < 5 ∧ p.2 < 5 := by
  have hp : arrowPattern d = [(2, 2), (2, 2), (2, 2), (2, 2), (2, 2), (2, 2), (2, 2)] := by
    unfold arrowPattern
    rw [if_neg hN, if_neg hS, if_neg hE, if_neg hW]
  refine ⟨by rw [hp]; rfl, ?_⟩
  rw [hp]
  intro p hp'
  simp only [List.mem_cons, List.not_mem_nil, or_false, or_self] at hp'
  subst hp'
  exact ⟨by norm_num, by norm_num⟩

/-- Witness for C6 at the unrecognized direction string "X". -/
theorem display_fallback_witness :
    ("X" ≠ "N") ∧ ("X" ≠ "S") ∧ ("X" ≠ "E") ∧ ("X" ≠ "W")
    ∧ (arrowPattern "X" = List.replicate 7 (2, 2)
      ∧ ∀ p ∈ arrowPattern "X", p.1 < 5 ∧ p.2 < 5) :=
  ⟨by decide, by decide, by decide, by decide,
    display_fallback "X" (by decide) (by decide) (by decide) (by decide)⟩

/-- C7: if any setup operation fails (`init`, either mode configuration,
`into_mag_continuous`, or `mag_enable_low_pass_filter`), the startup trace
halts fatally and the steady loop is never entered: no poll or heading
computation of the steady loop ever executes. -/
theorem setup_failure_halts (o : SetupOutcomes)
    (h : o.initOk = false ∨ o.accelCfgOk = false ∨ o.magCfgOk = false
      ∨ o.contModeOk = false ∨ o.lpfOk = false) :
    SetupEvent.steadyLoopEntered ∉ startupTrace o
    ∧ SetupEvent.fatalHalt ∈ startupTrace o := by
  obtain ⟨m, i, a, g, c, l⟩ := o
  cases m <;> cases i <;> cases a <;> cases g <;> cases c <;> cases l <;>
    first
    | decide
    | simp at h

/-- Witness for C7 with a failing `init` and every other operation
succeeding. -/
theorem setup_failure_halts_witness :
    ((SetupOutcomes.mk true false true true true true).initOk = false
      ∨ (SetupOutcomes.mk true false true true true true).accelCfgOk = false
      ∨ (SetupOutcomes.mk true false true true true true).magCfgOk = false
      ∨ (SetupOutcomes.mk true false true true true true).contModeOk = false
      ∨ (SetupOutcomes.mk true false true true true true).lpfOk = false)
    ∧ (SetupEvent.steadyLoopEntered ∉ startupTrace (SetupOutcomes.mk true false true true true true)
      ∧ SetupEvent.fatalHalt ∈ startupTrace (SetupOutcomes.mk true false true true true true)) :=
  ⟨Or.inl rfl, setup_failure_halts (SetupOutcomes.mk true false true true true true) (Or.inl rfl)⟩

/-- C8: the identity probe is non-fatal and informational only: whatever its
outcome, the startup trace begins with the corresponding log event (success
and failure are each merely logged) and the remainder of the trace — the
rest of acquisition setup and entry into the steady loop — is identical for
both outcomes. -/
theorem mag_id_probe_nonfatal (b₁ b₂ i a g c l : Bool) :
    List.tail (startupTrace (SetupOutcomes.mk b₁ i a g c l))
      = List.tail (startupTrace (SetupOutcomes.mk b₂ i a g c l))
    ∧ List.head? (startupTrace (SetupOutcomes.mk b₁ i a g c l)) = some (magIdLog b₁)
    ∧ magIdLog true = SetupEvent.logMagIdOk
    ∧ magIdLog false = SetupEvent.logMagIdErr :=
  ⟨rfl, rfl, rfl, rfl⟩

/-- The first guard of the IEEE classifier fires on its range. -/
lemma gcd_ieee_north (q : ℚ) (hq : 315 ≤ q ∨ q < 45) :
    get_cardinal_direction_ieee (FVal.val q) = "N" := by
  unfold get_cardinal_direction_ieee
  rw [if_pos (by simp only [fge, flt, Bool.or_eq_true, decide_eq_true_eq]; exact hq)]

/-- On a finite value the IEEE classifier never reaches the fallback arm. -/
lemma gcd_ieee_val_total (q : ℚ) :
    get_cardinal_direction_ieee (FVal.val q) = "N"
    ∨ get_cardinal_direction_ieee (FVal.val q) = "E"
    ∨ get_cardinal_direction_ieee (FVal.val q) = "S"
    ∨ get_cardinal_direction_ieee (FVal.val q) = "W" := by
  unfold get_cardinal_direction_ieee
  split_ifs with h1 h2 h3 h4
  · exact Or.inl rfl
  · exact Or.inr (Or.inl rfl)
  · exact Or.inr (Or.inr (Or.inl rfl))
  · exact Or.inr (Or.inr (Or.inr rfl))
  · exfalso
    simp only [fge, flt, Bool.or_eq_true, Bool.and_eq_true, decide_eq_true_eq] at h1 h2 h3 h4
    push_neg at h1 h2 h3 h4
    exact absurd (h4 (h3 (h2 h1.2))) (not_le.mpr h1.1)

/-- C10: the classifier is total over all numeric (non-NaN) inputs, not only
[0, 360): every finite heading classifies as one of N, E, S, W; any heading
with h ≥ 315 or h < 45 — hence every negative heading and every heading
≥ 360 — classifies as North; and the fallback arm "?" is reached exactly
when the heading is NaN (all four guards are IEEE-false on NaN). -/
theorem classifier_ieee_total :
    (∀ h : FVal, get_cardinal_direction_ieee h = "?" ↔ h = FVal.nan)
    ∧ (∀ q : ℚ, get_cardinal_direction_ieee (FVal.val q) = "N"
        ∨ get_cardinal_direction_ieee (FVal.val q) = "E"
        ∨ get_cardinal_direction_ieee (FVal.val q) = "S"
        ∨ get_cardinal_direction_ieee (FVal.val q) = "W")
    ∧ (∀ q : ℚ, (315 ≤ q ∨ q < 45) → get_cardinal_direction_ieee (FVal.val q) = "N")
    ∧ (∀ q : ℚ, (q < 0 ∨ 360 ≤ q) → get_cardinal_direction_ieee (FVal.val q) = "N") := by
  refine ⟨?_, gcd_ieee_val_total, fun q hq => gcd_ieee_north q hq, ?_⟩
  · intro h
    cases h with
    | nan => simp [get_cardinal_direction_ieee, fge, flt]
    | val q =>
      constructor
      · intro heq
        rcases gcd_ieee_val_total q with hv | hv | hv | hv <;> rw [hv] at heq <;>
          exact absurd heq (by decide)
      · intro heq
        exact FVal.noConfusion heq
  · intro q hq
    refine gcd_ieee_north q ?_
    rcases hq with hq | hq
    · exact Or.inr (by linarith)
    · exact Or.inl (by linarith)

/-- Witness for C10: the out-of-range heading 400 classifies as North, and
NaN reaches the fallback. -/
theorem classifier_ieee_total_witness :
    ((315 : ℚ) ≤ 400 ∨ (400 : ℚ) < 45)
    ∧ get_cardinal_direction_ieee (FVal.val 400) = "N"
    ∧ ((400 : ℚ) < 0 ∨ (360 : ℚ) ≤ 400)
    ∧ get_cardinal_direction_ieee (FVal.val (-10)) = "N"
    ∧ ((-10 : ℚ) < 0 ∨ (360 : ℚ) ≤ -10)
    ∧ (get_cardinal_direction_ieee FVal.nan = "?" ↔ FVal.nan = FVal.nan) :=
  ⟨Or.inl (by norm_num), classifier_ieee_total.2.2.1 400 (Or.inl (by norm_num)),
    Or.inr (by norm_num), classifier_ieee_total.2.2.2 (-10) (Or.inl (by norm_num)),
    Or.inl (by norm_num), classifier_ieee_total.1 FVal.nan⟩

/-- The embedded `atan2` lands in `(-π, π]`, the range of the complex
argument. -/
lemma atan2_mem_Ioc (y x : ℝ) : atan2 y x ∈ Set.Ioc (-Real.pi) Real.pi :=
  Complex.arg_mem_Ioc _

/-- Converting an `atan2` result to degrees lands in `(-180, 180]`. -/
lemma to_degrees_atan2_bounds (y x : ℝ) :
    -180 < to_degrees (atan2 y x) ∧ to_degrees (atan2 y x) ≤ 180 := by
  obtain ⟨hl, hu⟩ := atan2_mem_Ioc y x
  have hπ := Real.pi_pos
  have hq : (0 : ℝ) < 180 / Real.pi := by positivity
  have e2 : Real.pi * (180 / Real.pi) = 180 := by field_simp
  have e1 : (-Real.pi) * (180 / Real.pi) = -180 := by
    rw [neg_mul, e2]
  constructor
  · have h1 : (-Real.pi) * (180 / Real.pi) < atan2 y x * (180 / Real.pi) :=
      mul_lt_mul_of_pos_right hl hq
    unfold to_degrees
    linarith
  · have h1 : atan2 y x * (180 / Real.pi) ≤ Real.pi * (180 / Real.pi) :=
      mul_le_mul_of_nonneg_right hu hq.le
    unfold to_degrees
    linarith

/-- Folding a degree value in `(-180, 180]` by the final `if heading < 0`
branch of `compute_heading` lands in `[0, 360)`. -/
lemma fold_range (d : ℝ) (h1 : -180 < d) (h2 : d ≤ 180) :
    0 ≤ (if d < 0 then d + 360 else d) ∧ (if d < 0 then d + 360 else d) < 360 := by
  split_ifs with hd
  · constructor <;> linarith
  · push_neg at hd
    constructor <;> linarith

/-- C2: for every accelerometer vector of non-zero Euclidean norm and every
magnetometer vector, `compute_heading` returns a value in [0, 360): never
negative and never greater than or equal to 360. -/
theorem compute_heading_mem_Ico (ax ay az mx my mz : ℝ)
    (hnd : Real.sqrt (ax * ax + ay * ay + az * az) ≠ 0) :
    0 ≤ compute_heading ax ay az mx my mz
    ∧ compute_heading ax ay az mx my mz < 360 := by
  simp only [compute_heading]
  exact fold_range _ (to_degrees_atan2_bounds _ _).1 (to_degrees_atan2_bounds _ _).2

/-- Witness for C2 at the level fixture accel = (0, 0, 1000),
mag = (300, 0, 0). -/
theorem compute_heading_mem_Ico_witness :
    (Real.sqrt ((0 : ℝ) * 0 + 0 * 0 + 1000 * 1000) ≠ 0)
    ∧ (0 ≤ compute_heading 0 0 1000 300 0 0 ∧ compute_heading 0 0 1000 300 0 0 < 360) :=
  ⟨by rw [Real.sqrt_ne_zero']; norm_num,
    compute_heading_mem_Ico 0 0 1000 300 0 0 (by rw [Real.sqrt_ne_zero']; norm_num)⟩

/-- The heading estimator as written in the spec (section 4.2): take the two
Vector3 samples, normalize the accelerometer by its Euclidean norm, derive
pitch and roll, apply the stated tilt-compensation formulas, convert the
`atan2` result to degrees and add 360 if negative.  This definition follows
the spec text and is compared against the source embedding in C3. -/
noncomputable def compute_heading_spec (accel mag : ℝ × ℝ × ℝ) : ℝ :=
  let n := Real.sqrt (accel.1 ^ 2 + accel.2.1 ^ 2 + accel.2.2 ^ 2)
  let ax := accel.1 / n
  let ay := accel.2.1 / n
  let az := accel.2.2 / n
  let pitch := Real.arcsin (-ax)
  let roll := atan2 ay az
  let mag_xh := mag.1 * Real.cos roll + mag.2.1 * Real.sin roll * Real.sin pitch
    - mag.2.2 * Real.cos pitch
  let mag_yh := mag.2.1 * Real.cos pitch + mag.2.2 * Real.sin pitch
  let heading := to_degrees (atan2 mag_yh mag_xh)
  if heading < 0 then heading + 360 else heading

/-- C3: `compute_heading` follows exactly the algorithm of spec section 4.2:
the source embedding and the spec-text definition agree on all inputs. -/
theorem compute_heading_follows_spec (x y z mx my mz : ℝ) :
    compute_heading x y z mx my mz = compute_heading_spec (x, y, z) (mx, my, mz) := by
  simp only [compute_heading, compute_heading_spec, pow_two]

/-- C9: `compute_heading` is invariant under positive scaling of the
accelerometer input, because the accelerometer vector is normalized by its
Euclidean norm before use. -/
theorem compute_heading_scale_invariant (k x y z mx my mz : ℝ) (hk : 0 < k)
    (hn : Real.sqrt (x * x + y * y + z * z) ≠ 0) :
    compute_heading (k * x) (k * y) (k * z) mx my mz
      = compute_heading x y z mx my mz := by
  have hn2 : Real.sqrt (k * x * (k * x) + k * y * (k * y) + k * z * (k * z))
      = k * Real.sqrt (x * x + y * y + z * z) := by
    rw [show k * x * (k * x) + k * y * (k * y) + k * z * (k * z)
        = (k * k) * (x * x + y * y + z * z) by ring]
    rw [Real.sqrt_mul (by positivity : (0 : ℝ) ≤ k * k)]
    rw [Real.sqrt_mul_self hk.le]
  simp only [compute_heading]
  rw [hn2, mul_div_mul_left x _ (ne_of_gt hk), mul_div_mul_left y _ (ne_of_gt hk),
    mul_div_mul_left z _ (ne_of_gt hk)]

/-- Witness for C9: doubling the level-fixture accelerometer leaves the
heading unchanged. -/
theorem compute_heading_scale_invariant_witness :
    ((0 : ℝ) < 2 ∧ Real.sqrt ((0 : ℝ) * 0 + 0 * 0 + 1000 * 1000) ≠ 0)
    ∧ compute_heading (2 * 0) (2 * 0) (2 * 1000) 300 0 0
      = compute_heading 0 0 1000 300 0 0 :=
  ⟨⟨by norm_num, by rw [Real.sqrt_ne_zero']; norm_num⟩,
    compute_heading_scale_invariant 2 0 0 1000 300 0 0 (by norm_num)
      (by rw [Real.sqrt_ne_zero']; norm_num)⟩

/-- `atan2 0 x = 0` for positive `x` (argument of a positive real). -/
lemma atan2_zero_pos (x : ℝ) (hx : 0 < x) : atan2 0 x = 0 := by
  unfold atan2
  rw [Complex.ofReal_zero, zero_mul, add_zero]
  exact Complex.arg_ofReal_of_nonneg hx.le

/-- `atan2 y 0 = π/2` for positive `y` (argument of a positive imaginary). -/
lemma atan2_pos_zero (y : ℝ) (hy : 0 < y) : atan2 y 0 = Real.pi / 2 := by
  unfold atan2
  rw [Complex.arg_eq_pi_div_two_iff]
  constructor
  · simp
  · simpa using hy

/-- A right angle in degrees. -/
lemma to_degrees_pi_div_two : to_degrees (Real.pi / 2) = 90 := by
  unfold to_degrees
  have hπ : Real.pi ≠ 0 := Real.pi_ne_zero
  field_simp
  ring

/-- With a level accelerometer (0, 0, 1000), pitch and roll vanish and
`compute_heading` reduces to the folded degree angle of
`atan2 mag_y (mag_x - mag_z)`. -/
lemma compute_heading_level (mx my mz : ℝ) :
    compute_heading 0 0 1000 mx my mz
      = (if to_degrees (atan2 my (mx - mz)) < 0
          then to_degrees (atan2 my (mx - mz)) + 360
          else to_degrees (atan2 my (mx - mz))) := by
  have hs : Real.sqrt ((0 : ℝ) * 0 + 0 * 0 + 1000 * 1000) = 1000 := by
    rw [show (0 : ℝ) * 0 + 0 * 0 + 1000 * 1000 = 1000 ^ 2 by norm_num]
    exact Real.sqrt_sq (by norm_num)
  simp only [compute_heading]
  rw [hs]
  norm_num [atan2_zero_pos 1 one_pos, Real.arcsin_zero, Real.cos_zero, Real.sin_zero]

/-- C5: with a level sensor, accel = (0, 0, 1000) and mag = (300, 0, 0),
`compute_heading` returns exactly 0 degrees and the result classifies as
North; with the same accelerometer and mag = (0, 300, 0) it returns exactly
90 degrees and the result classifies as East. -/
theorem level_fixture :
    compute_heading 0 0 1000 300 0 0 = 0
    ∧ get_cardinal_direction (compute_heading 0 0 1000 300 0 0) = "N"
    ∧ compute_heading 0 0 1000 0 300 0 = 90
    ∧ get_cardinal_direction (compute_heading 0 0 1000 0 300 0) = "E" := by
  have h1 : compute_heading 0 0 1000 300 0 0 = 0 := by
    rw [compute_heading_level 300 0 0]
    norm_num [atan2_zero_pos 300 (by norm_num : (0 : ℝ) < 300), to_degrees]
  have h2 : compute_heading 0 0 1000 0 300 0 = 90 := by
    rw [compute_heading_level 0 300 0]
    rw [show (0 : ℝ) - 0 = 0 by norm_num]
    rw [atan2_pos_zero 300 (by norm_num : (0 : ℝ) < 300)]
    rw [to_degrees_pi_div_two]
    norm_num
  refine ⟨h1, ?_, h2, ?_⟩
  · rw [h1]
    exact gcd_eq_north 0 (Or.inr (by norm_num))
  · rw [h2]
    exact gcd_eq_east 90 (by norm_num) (by norm_num)
